import Mathlib

/-!
Verification of the embedding-service core of the portfolio backend
(`app/services/embedding_service.py`).

The development shallow-embeds the service: Python dicts become ordered
association lists with dict semantics, the FAISS vector store becomes an
inductive `Index` that records how it was built, fallible I/O and network
steps become `Except`-valued operations supplied through an environment
record, and the mutable singleton state becomes explicit state passing.
Machine floats (distances, similarity scores) are idealised as rationals.
-/

set_option autoImplicit false

namespace PortfolioBackend

/-! ### Documents

A loaded document (`MarkdownLoader` output): a storage key plus its text.
Only `metadata["key"]` and `page_content` are read by `process_embeddings`.
-/

structure Doc where
  key : String
  content : String
deriving DecidableEq, Repr

/-! ### Python dict with string keys and values

`dGet` is `d.get(k)` (first matching key); `dInsert` is `d[k] = v`
(overwrite in place if present, append otherwise), preserving the
insertion order of a Python dict.
-/

abbrev PyDict := List (String × String)

def dGet (d : PyDict) (k : String) : Option String :=
  (d.find? (fun p => decide (p.1 = k))).map Prod.snd

def dInsert (d : PyDict) (k v : String) : PyDict :=
  if d.any (fun p => decide (p.1 = k)) then
    d.map (fun p => if p.1 = k then (k, v) else p)
  else
    d ++ [(k, v)]

def dKeys (d : PyDict) : List String := d.map Prod.fst

/-! ### The vector store

`Index` is an opaque model of a FAISS store that records its provenance:
`fromDocs cs` is `FAISS.from_documents(cs, embeddings)` and
`merged base extra` is `base.merge_from(extra)`.  `ntotal` is
`index.ntotal`, the number of stored vectors.
-/

inductive Index where
  | fromDocs (chunks : List Doc)
  | merged (base extra : Index)
deriving DecidableEq, Repr

def Index.ntotal : Index → Nat
  | .fromDocs cs => cs.length
  | .merged a b => a.ntotal + b.ntotal

instance instDecEqExcept {ε α : Type} [DecidableEq ε] [DecidableEq α] :
    DecidableEq (Except ε α) := fun x y =>
  match x, y with
  | .ok a, .ok b =>
      if h : a = b then isTrue (by rw [h])
      else isFalse (fun hc => h (Except.ok.inj hc))
  | .error a, .error b =>
      if h : a = b then isTrue (by rw [h])
      else isFalse (fun hc => h (Except.error.inj hc))
  | .ok _, .error _ => isFalse (fun hc => Except.noConfusion hc)
  | .error _, .ok _ => isFalse (fun hc => Except.noConfusion hc)

/-! ### Service state

`vectorStore` is the in-memory `self.vector_store`; `hashFile` is the
persisted fingerprint file (`none` = absent, `some (.error e)` = present
but unparseable, `some (.ok m)` = parses to `m`); `diskIndex` is the
persisted FAISS directory content.  `mtimeStr` is the outcome of
`datetime.fromtimestamp(hash_file.stat().st_mtime).isoformat()` and
`dirSize` the outcome of summing file sizes under the store directory,
both kept as oracles because they touch the file system.
-/

structure SState where
  vectorStore : Option Index
  hashFile : Option (Except String PyDict)
  diskIndex : Option Index
  mtimeStr : Except String String
  storeDirExists : Bool
  dirSize : Except String Nat
deriving DecidableEq, Repr

/-- `_load_previous_hashes`: returns the parsed map when the file exists
and parses, and `{}` when the file is absent or unparseable (the parse
error is caught and logged inside the helper, lines 58-65). -/
def loadPreviousHashes (st : SState) : PyDict :=
  match st.hashFile with
  | some (.ok m) => m
  | _ => []

/-! ### Ingest pipeline environment

Each fallible collaborator of `process_embeddings` is a field:
`load` is `MarkdownLoader(...).load()`, `split` the pure
`RecursiveCharacterTextSplitter.split_documents`, `embed` is
`FAISS.from_documents` (vectorizer + index build), `saveIndex` is
`mkdir` + `save_local`, `saveMap` is `_save_hashes` (which re-raises
write failures, line 74).  `sha256` is the content digest `_sha256`.
-/

structure Env where
  sha256 : String → String
  load : Except String (List Doc)
  split : List Doc → List Doc
  embed : List Doc → Except String Index
  saveIndex : Index → Except String Unit
  saveMap : PyDict → Except String Unit

structure ProcessResult where
  success : Bool
  message : String
deriving DecidableEq, Repr

inductive Event where
  | savedIndex
  | savedMap
deriving DecidableEq, Repr

def mkProcessError (e : String) : ProcessResult :=
  { success := false, message := "Error processing embeddings: " ++ e }

def noDocsResult : ProcessResult :=
  { success := false, message := "No documents found to process" }

def upToDateResult : ProcessResult :=
  { success := true, message := "No changes detected. Vector store is up to date." }

def successResult (nDocs nChunks : Nat) : ProcessResult :=
  { success := true
    message := "Successfully processed " ++ toString nDocs ++
      " documents and created " ++ toString nChunks ++ " chunks" }

/-! ### Change-set classification (lines 96-108)

The loop body: compute the content hash, record it into `current_hashes`
unconditionally, then classify the document by comparing with
`prev_hashes.get(key)` (Python `None != h` makes an absent key count as
changed).  The accumulator is `(new_docs, kept_docs, current_hashes)`.
-/

def classifyStep (sha : String → String) (prev : PyDict)
    (acc : List Doc × List Doc × PyDict) (doc : Doc) :
    List Doc × List Doc × PyDict :=
  let contentHash := sha doc.content
  let cur := dInsert acc.2.2 doc.key contentHash
  if dGet prev doc.key ≠ some contentHash then
    (acc.1 ++ [doc], acc.2.1, cur)
  else
    (acc.1, acc.2.1 ++ [doc], cur)

def classify (sha : String → String) (docs : List Doc) (prev : PyDict) :
    List Doc × List Doc × PyDict :=
  docs.foldl (classifyStep sha prev) ([], [], [])

/-! ### The ingest pipeline `process_embeddings` (lines 76-165)

Decomposed into the stages of the source; any step error short-circuits
to the structured failure result of the top-level handler (lines
159-165).  The second component of the result is the trace of durable
writes, in order.
-/

/-- Lines 130-141: build a brand-new store from the chunks of all
documents when no store is loaded or the update is forced; otherwise
merge the new chunks into the existing store, skipping the merge when
there are none. -/
def storeUpdate (env : Env) (force : Bool) (st : SState)
    (documents chunks : List Doc) : Except String Index :=
  match st.vectorStore, force with
  | none, _ => env.embed (env.split documents)
  | some _, true => env.embed (env.split documents)
  | some vs, false =>
      if chunks.isEmpty then Except.ok vs
      else (env.embed chunks).map (fun nvs => Index.merged vs nvs)

/-- Lines 143-157: persist the store, then the fingerprint map, then
report success. -/
def processPersist (env : Env) (st : SState) (vs : Index)
    (currentHashes : PyDict) (nNew nChunks : Nat) :
    SState × List Event × ProcessResult :=
  let st1 := { st with vectorStore := some vs }
  match env.saveIndex vs with
  | .error e => (st1, [], mkProcessError e)
  | .ok _ =>
    let st2 := { st1 with diskIndex := some vs, storeDirExists := true }
    match env.saveMap currentHashes with
    | .error e => (st2, [Event.savedIndex], mkProcessError e)
    | .ok _ =>
      ({ st2 with hashFile := some (Except.ok currentHashes) },
       [Event.savedIndex, Event.savedMap], successResult nNew nChunks)

/-- Lines 85-157: everything after the loader call. -/
def processWithDocs (env : Env) (force : Bool) (st : SState)
    (documents : List Doc) : SState × List Event × ProcessResult :=
  if documents.isEmpty then (st, [], noDocsResult)
  else
    let prevHashes := if force then [] else loadPreviousHashes st
    let cls := classify env.sha256 documents prevHashes
    if cls.1.isEmpty && !force then (st, [], upToDateResult)
    else
      let chunks := env.split cls.1
      match storeUpdate env force st documents chunks with
      | .error e => (st, [], mkProcessError e)
      | .ok vs => processPersist env st vs cls.2.2 cls.1.length chunks.length

/-- `process_embeddings(force_update)` (lines 76-165). -/
def processEmbeddings (env : Env) (force : Bool) (st : SState) :
    SState × List Event × ProcessResult :=
  match env.load with
  | .error e => (st, [], mkProcessError e)
  | .ok documents => processWithDocs env force st documents

/-! ### The query pipeline `search` (lines 167-223)

`RawDoc` is a document as returned by
`similarity_search_with_score` (a langchain document: content plus a
metadata dict whose keys may be missing, hence the `Option` fields).
Distances and scores are idealised as rationals.
-/

structure RawDoc where
  page_content : String
  keyMeta : Option String
  sourceMeta : Option String
  sizeMeta : Option Nat
  lastModified : Option String
deriving DecidableEq, Repr

structure DocumentMetadata where
  key : String
  source : String
  size : Option Nat
  last_modified : Option String
deriving DecidableEq, Repr

structure DocumentChunk where
  content : String
  metadata : DocumentMetadata
  score : ℚ
deriving DecidableEq, Repr

/-- Python exception values, tagged by their class.  The service only
ever raises `ValueError`; other classes exist in the model because
Python callers can discriminate on the class of a raised exception. -/
inductive PyError where
  | valueError (msg : String)
  | runtimeError (msg : String)
deriving DecidableEq, Repr

def PyError.className : PyError → String
  | .valueError _ => "ValueError"
  | .runtimeError _ => "RuntimeError"

def PyError.message : PyError → String
  | .valueError m => m
  | .runtimeError m => m

def notReadyMessage : String :=
  "Vector store not available. Please process embeddings first."

/-- The index engine half of the query pipeline:
`similarity_search_with_score(query, k)`, returning document/distance
pairs or raising. -/
structure SearchEnv where
  engine : String → Nat → Except String (List (RawDoc × ℚ))

/-- Python `round(x, 4)` idealised on rationals: round to the nearest
multiple of `1/10000`, ties to even. -/
def roundHalfEven (x : ℚ) : ℤ :=
  let f := ⌊x⌋
  let r := x - (f : ℚ)
  if r < 1/2 then f
  else if 1/2 < r then f + 1
  else if f % 2 = 0 then f else f + 1

def pyRound4 (x : ℚ) : ℚ := (roundHalfEven (x * 10000) : ℚ) / 10000

/-- Lines 199-216: shape one surviving engine result into a
`DocumentChunk`, applying the `metadata.get(..., "unknown")` defaults
and rounding the score to four decimal places. -/
def toDocumentChunk (doc : RawDoc) (similarity : ℚ) : DocumentChunk :=
  { content := doc.page_content
    metadata :=
      { key := doc.keyMeta.getD "unknown"
        source := doc.sourceMeta.getD "unknown"
        size := doc.sizeMeta
        last_modified := doc.lastModified }
    score := pyRound4 similarity }

/-- `search(query, max_results, threshold)` (lines 167-223): fail fast
when no store is loaded (lines 171-173), run the engine, keep each
result whose similarity `1/(1+score)` clears the threshold (lines
188-218), and wrap any engine failure (lines 222-223). -/
def search (vectorStore : Option Index) (env : SearchEnv)
    (query : String) (maxResults : Nat) (threshold : ℚ) :
    Except PyError (List DocumentChunk) :=
  match vectorStore with
  | none => .error (.valueError notReadyMessage)
  | some _ =>
    match env.engine query maxResults with
    | .error e => .error (.valueError ("Search error: " ++ e))
    | .ok results =>
      .ok (results.filterMap (fun r =>
        let similarity := (1 : ℚ) / (1 + r.2)
        if threshold ≤ similarity then some (toDocumentChunk r.1 similarity)
        else none))

/-! ### Statistics `get_stats` (lines 225-268) -/

structure EmbeddingStats where
  total_documents : Nat
  total_chunks : Nat
  last_update : Option String
  vector_store_size : Option Nat
deriving DecidableEq, Repr

def zeroStats : EmbeddingStats :=
  { total_documents := 0, total_chunks := 0
    last_update := none, vector_store_size := none }

def isErrorE {α : Type} : Except String α → Bool
  | .error _ => true
  | .ok _ => false

def exceptToOption {α : Type} : Except String α → Option α
  | .ok a => some a
  | .error _ => none

/-- The body of the outer `try` of `get_stats`: document count from the
fingerprint map (parse failures already swallowed inside
`_load_previous_hashes`), chunk count from the in-memory store (the
`hasattr(index, ntotal)` guard is modelled as always true, since a FAISS
index always exposes `ntotal`), the map file timestamp (whose `stat` may
raise up to the outer handler), and the store directory size (whose own
failures are swallowed by the inner `try/except: pass`, lines 247-252). -/
def getStatsCore (st : SState) : Except String EmbeddingStats :=
  let hashes := loadPreviousHashes st
  let totalDocuments := hashes.length
  let totalChunks :=
    match st.vectorStore with
    | some ix => ix.ntotal
    | none => 0
  match (if st.hashFile.isSome then st.mtimeStr.map some else .ok none) with
  | .error e => .error e
  | .ok lastUpdate =>
    let vectorStoreSize :=
      if st.storeDirExists then
        match st.dirSize with
        | .ok n => some n
        | .error _ => none
      else none
    .ok { total_documents := totalDocuments, total_chunks := totalChunks
          last_update := lastUpdate, vector_store_size := vectorStoreSize }

/-- `get_stats` (lines 225-268): the outer handler converts any escaped
failure into the zeroed statistics. -/
def getStats (st : SState) : EmbeddingStats :=
  match getStatsCore st with
  | .ok s => s
  | .error _ => zeroStats

/-! ### Singleton lifecycle (lines 20-36, 270-285)

Objects are identified by an allocation id.  `instInitialized` models
the presence of the instance attribute `self._initialized` (only ever
set to `True`, line 36); `clsInitialized` is the class attribute
(line 21, reset by `reset_instance`).  `initCount` counts how many times
the initialisation body (including `_load_vector_store`) has run.
-/

structure Obj where
  oid : Nat
  instInitialized : Bool
deriving DecidableEq, Repr

structure ClassState where
  instanceSlot : Option Obj
  clsInitialized : Bool
  nextOid : Nat
  initCount : Nat
deriving DecidableEq, Repr

/-- `__new__` (lines 23-26): allocate only when no instance exists. -/
def newService (cs : ClassState) : Obj × ClassState :=
  match cs.instanceSlot with
  | some o => (o, cs)
  | none =>
    let o : Obj := { oid := cs.nextOid, instInitialized := false }
    (o, { cs with instanceSlot := some o, nextOid := cs.nextOid + 1 })

/-- Python attribute lookup `self._initialized`: the instance attribute
shadows the class attribute. -/
def readInitialized (o : Obj) (cs : ClassState) : Bool :=
  o.instInitialized || cs.clsInitialized

/-- `__init__` (lines 28-36): run the body at most once per object. -/
def initService (o : Obj) (cs : ClassState) : Obj × ClassState :=
  if readInitialized o cs then (o, cs)
  else
    let o2 := { o with instInitialized := true }
    (o2, { cs with instanceSlot := some o2, initCount := cs.initCount + 1 })

/-- `EmbeddingService()`: `__new__` then `__init__` on its result. -/
def constructService (cs : ClassState) : Obj × ClassState :=
  let p := newService cs
  initService p.1 p.2

/-- `get_instance` (lines 270-275). -/
def getInstance (cs : ClassState) : Obj × ClassState :=
  match cs.instanceSlot with
  | some o => (o, cs)
  | none => constructService cs

/-- `reset_instance` (lines 277-281). -/
def resetInstance (cs : ClassState) : ClassState :=
  { cs with instanceSlot := none, clsInitialized := false }

inductive SvcOp where
  | construct
  | getInst
deriving DecidableEq, Repr

/-- Run a sequence of constructions and `get_instance` calls, collecting
the returned objects. -/
def runOps (ops : List SvcOp) (cs : ClassState) : List Obj × ClassState :=
  match ops with
  | [] => ([], cs)
  | op :: rest =>
    let p :=
      match op with
      | SvcOp.construct => constructService cs
      | SvcOp.getInst => getInstance cs
    let q := runOps rest p.2
    (p.1 :: q.1, q.2)

/-- The class state of a freshly imported module (lines 20-21). -/
def freshClassState : ClassState :=
  { instanceSlot := none, clsInitialized := false, nextOid := 0, initCount := 0 }

/-! ## Concrete fixtures used by counterexamples and witnesses -/

def shaW : String → String := fun s => String.append "#" s

def docsW : List Doc := [⟨"a", "x"⟩, ⟨"b", "y"⟩]

def prevW : PyDict := [("a", "#x")]

/-! ## Helper lemmas: dict operations -/

theorem dGet_nil (k : String) : dGet [] k = none := rfl

theorem dGet_cons (k : String) (p : String × String) (d : PyDict) :
    dGet (p :: d) k = if p.1 = k then some p.2 else dGet d k := by
  by_cases h : p.1 = k <;> simp [dGet, List.find?, h]

theorem dGet_append (d tail : PyDict) (k : String) :
    dGet (d ++ tail) k = ((dGet d k).rec (dGet tail k) (fun v => some v)) := by
  induction d with
  | nil => rfl
  | cons p tl ih =>
    simp only [List.cons_append, dGet_cons]
    by_cases hp : p.1 = k
    · rw [if_pos hp, if_pos hp]
    · rw [if_neg hp, if_neg hp]
      exact ih

theorem dGet_map_replace (d : PyDict) (k k' v : String) (hne : k ≠ k') :
    dGet (d.map (fun p => if p.1 = k' then (k', v) else p)) k = dGet d k := by
  induction d with
  | nil => rfl
  | cons p tl ih =>
    by_cases hp : p.1 = k'
    · have hpk : ¬ p.1 = k := fun hc => hne (hc.symm.trans hp)
      simp only [List.map_cons, if_pos hp, dGet_cons]
      rw [if_neg (fun hc : k' = k => hne hc.symm), if_neg hpk]
      exact ih
    · simp only [List.map_cons, if_neg hp, dGet_cons]
      by_cases hpk : p.1 = k
      · rw [if_pos hpk, if_pos hpk]
      · rw [if_neg hpk, if_neg hpk]
        exact ih

theorem dGet_map_self (d : PyDict) (k v : String)
    (h : d.any (fun p => decide (p.1 = k)) = true) :
    dGet (d.map (fun p => if p.1 = k then (k, v) else p)) k = some v := by
  induction d with
  | nil => simp at h
  | cons p tl ih =>
    by_cases hp : p.1 = k
    · simp [hp, dGet_cons]
    · simp only [List.map_cons, if_neg hp, dGet_cons]
      apply ih
      simpa [hp] using h

theorem dGet_eq_none_of_no_match (d : PyDict) (k : String)
    (h : d.any (fun p => decide (p.1 = k)) = false) :
    dGet d k = none := by
  induction d with
  | nil => rfl
  | cons p tl ih =>
    simp only [List.any_cons, Bool.or_eq_false_iff, decide_eq_false_iff_not] at h
    rw [dGet_cons, if_neg h.1]
    exact ih (by simp [h.2])

theorem dGet_dInsert_self (d : PyDict) (k v : String) :
    dGet (dInsert d k v) k = some v := by
  rw [dInsert]
  by_cases h : d.any (fun p => decide (p.1 = k))
  · rw [if_pos h]
    exact dGet_map_self d k v h
  · rw [if_neg h]
    rw [dGet_append, dGet_eq_none_of_no_match d k (Bool.eq_false_iff.mpr h)]
    simp [dGet_cons]

theorem dGet_dInsert_of_ne (d : PyDict) (k k' v : String) (hne : k ≠ k') :
    dGet (dInsert d k' v) k = dGet d k := by
  rw [dInsert]
  by_cases h : d.any (fun p => decide (p.1 = k'))
  · rw [if_pos h]
    exact dGet_map_replace d k k' v hne
  · rw [if_neg h, dGet_append]
    have hone : dGet [(k', v)] k = none := by
      rw [dGet_cons, if_neg (fun hc : k' = k => hne hc.symm)]
      rfl
    rw [hone]
    cases dGet d k <;> rfl

/-! ## Helper lemmas: change-set classification -/

theorem classify_foldl (sha : String → String) (prev : PyDict) (docs : List Doc)
    (acc : List Doc × List Doc × PyDict) :
    docs.foldl (classifyStep sha prev) acc =
      (acc.1 ++ docs.filter (fun d => decide (dGet prev d.key ≠ some (sha d.content))),
       acc.2.1 ++ docs.filter (fun d => decide (dGet prev d.key = some (sha d.content))),
       docs.foldl (fun m d => dInsert m d.key (sha d.content)) acc.2.2) := by
  induction docs generalizing acc with
  | nil => simp
  | cons d tl ih =>
    simp only [List.foldl_cons, List.filter_cons]
    by_cases h : dGet prev d.key = some (sha d.content)
    · rw [show classifyStep sha prev acc d =
          (acc.1, acc.2.1 ++ [d], dInsert acc.2.2 d.key (sha d.content)) from by
        simp [classifyStep, h]]
      rw [ih]
      simp [h]
    · rw [show classifyStep sha prev acc d =
          (acc.1 ++ [d], acc.2.1, dInsert acc.2.2 d.key (sha d.content)) from by
        simp [classifyStep, h]]
      rw [ih]
      simp [h]

theorem classify_eq (sha : String → String) (docs : List Doc) (prev : PyDict) :
    classify sha docs prev =
      (docs.filter (fun d => decide (dGet prev d.key ≠ some (sha d.content))),
       docs.filter (fun d => decide (dGet prev d.key = some (sha d.content))),
       docs.foldl (fun m d => dInsert m d.key (sha d.content)) []) := by
  rw [classify, classify_foldl]
  simp

theorem dGet_hashFold_no_key (sha : String → String) (docs : List Doc)
    (k : String) (m : PyDict) (h : ∀ d ∈ docs, d.key ≠ k) :
    dGet (docs.foldl (fun m d => dInsert m d.key (sha d.content)) m) k = dGet m k := by
  induction docs generalizing m with
  | nil => rfl
  | cons x tl ih =>
    simp only [List.foldl_cons]
    rw [ih _ (fun d hd => h d (List.mem_cons_of_mem x hd))]
    exact dGet_dInsert_of_ne m k x.key (sha x.content)
      (fun hc => h x (List.mem_cons_self x tl) hc.symm)

theorem dGet_hashFold (sha : String → String) (docs : List Doc)
    (hk : (docs.map Doc.key).Nodup) (d : Doc) (hd : d ∈ docs) (m : PyDict) :
    dGet (docs.foldl (fun m x => dInsert m x.key (sha x.content)) m) d.key
      = some (sha d.content) := by
  induction docs generalizing m with
  | nil => exact absurd hd (List.not_mem_nil d)
  | cons x tl ih =>
    simp only [List.map_cons, List.nodup_cons] at hk
    rcases List.mem_cons.mp hd with rfl | hmem
    · simp only [List.foldl_cons]
      rw [dGet_hashFold_no_key sha tl d.key _
        (fun y hy hc => hk.1 (hc ▸ List.mem_map_of_mem Doc.key hy))]
      exact dGet_dInsert_self m d.key (sha d.content)
    · simp only [List.foldl_cons]
      exact ih hk.2 hmem _

/-! ## Helper lemmas: pipeline stages -/

theorem storeUpdate_build_none (env : Env) (force : Bool) (st : SState)
    (documents chunks : List Doc) (h : st.vectorStore = none) :
    storeUpdate env force st documents chunks = env.embed (env.split documents) := by
  rw [storeUpdate.eq_def, h]

theorem storeUpdate_build_force (env : Env) (st : SState)
    (documents chunks : List Doc) (vs : Index) (h : st.vectorStore = some vs) :
    storeUpdate env true st documents chunks = env.embed (env.split documents) := by
  rw [storeUpdate.eq_def, h]

theorem storeUpdate_merge (env : Env) (st : SState)
    (documents chunks : List Doc) (vs : Index) (h : st.vectorStore = some vs) :
    storeUpdate env false st documents chunks =
      if chunks.isEmpty then Except.ok vs
      else (env.embed chunks).map (fun nvs => Index.merged vs nvs) := by
  rw [storeUpdate.eq_def, h]

theorem processPersist_vectorStore (env : Env) (st : SState) (vs : Index)
    (currentHashes : PyDict) (nNew nChunks : Nat) :
    (processPersist env st vs currentHashes nNew nChunks).1.vectorStore = some vs := by
  rw [processPersist]
  rcases env.saveIndex vs with e | u
  · rfl
  · rcases env.saveMap currentHashes with e | u <;> rfl

theorem processPersist_shape (env : Env) (st : SState) (vs : Index)
    (currentHashes : PyDict) (nNew nChunks : Nat) :
    (∃ e, env.saveIndex vs = Except.error e
      ∧ processPersist env st vs currentHashes nNew nChunks =
          ({ st with vectorStore := some vs }, [], mkProcessError e))
    ∨ (∃ e, env.saveIndex vs = Except.ok () ∧ env.saveMap currentHashes = Except.error e
      ∧ processPersist env st vs currentHashes nNew nChunks =
          ({ st with vectorStore := some vs, diskIndex := some vs, storeDirExists := true },
           [Event.savedIndex], mkProcessError e))
    ∨ (env.saveIndex vs = Except.ok () ∧ env.saveMap currentHashes = Except.ok ()
      ∧ processPersist env st vs currentHashes nNew nChunks =
          ({ st with vectorStore := some vs, diskIndex := some vs, storeDirExists := true, hashFile := some (Except.ok currentHashes) }, [Event.savedIndex, Event.savedMap], successResult nNew nChunks)) := by
  rw [processPersist]
  rcases hsi : env.saveIndex vs with e | u
  · exact Or.inl ⟨e, rfl, rfl⟩
  · cases u
    rcases hsm : env.saveMap currentHashes with e | u
    · exact Or.inr (Or.inl ⟨e, rfl, rfl, rfl⟩)
    · cases u
      exact Or.inr (Or.inr ⟨rfl, rfl, rfl⟩)

theorem processEmbeddings_load_error (env : Env) (force : Bool) (st : SState)
    (e : String) (h : env.load = Except.error e) :
    processEmbeddings env force st = (st, [], mkProcessError e) := by
  rw [processEmbeddings.eq_def, h]

theorem processEmbeddings_load_ok (env : Env) (force : Bool) (st : SState)
    (docs : List Doc) (h : env.load = Except.ok docs) :
    processEmbeddings env force st = processWithDocs env force st docs := by
  rw [processEmbeddings.eq_def, h]

theorem processWithDocs_empty (env : Env) (force : Bool) (st : SState)
    (docs : List Doc) (h : docs.isEmpty = true) :
    processWithDocs env force st docs = (st, [], noDocsResult) := by
  simp [processWithDocs, h]

theorem processWithDocs_short (env : Env) (force : Bool) (st : SState)
    (docs : List Doc) (hne : docs.isEmpty = false)
    (hsc : (((classify env.sha256 docs
        (if force then [] else loadPreviousHashes st)).1.isEmpty && !force) = true)) :
    processWithDocs env force st docs = (st, [], upToDateResult) := by
  simp [processWithDocs, hne, hsc]

theorem processWithDocs_store_error (env : Env) (force : Bool) (st : SState)
    (docs : List Doc) (hne : docs.isEmpty = false)
    (hgo : (((classify env.sha256 docs
        (if force then [] else loadPreviousHashes st)).1.isEmpty && !force) = false))
    (e : String)
    (hsu : storeUpdate env force st docs
        (env.split (classify env.sha256 docs
          (if force then [] else loadPreviousHashes st)).1) = Except.error e) :
    processWithDocs env force st docs = (st, [], mkProcessError e) := by
  simp [processWithDocs, hne, hgo, hsu]

theorem processWithDocs_store_ok (env : Env) (force : Bool) (st : SState)
    (docs : List Doc) (hne : docs.isEmpty = false)
    (hgo : (((classify env.sha256 docs
        (if force then [] else loadPreviousHashes st)).1.isEmpty && !force) = false))
    (vs : Index)
    (hsu : storeUpdate env force st docs
        (env.split (classify env.sha256 docs
          (if force then [] else loadPreviousHashes st)).1) = Except.ok vs) :
    processWithDocs env force st docs = processPersist env st vs
      (classify env.sha256 docs (if force then [] else loadPreviousHashes st)).2.2
      (classify env.sha256 docs (if force then [] else loadPreviousHashes st)).1.length
      (env.split (classify env.sha256 docs
        (if force then [] else loadPreviousHashes st)).1).length := by
  simp [processWithDocs, hne, hgo, hsu]



theorem processEmbeddings_shape (env : Env) (force : Bool) (st : SState) :
    ((processEmbeddings env force st).2.1 = []
       ∧ (processEmbeddings env force st).1.hashFile = st.hashFile)
    ∨ ((processEmbeddings env force st).2.1 = [Event.savedIndex]
       ∧ (processEmbeddings env force st).1.hashFile = st.hashFile)
    ∨ (∃ vs m, env.saveIndex vs = Except.ok () ∧ env.saveMap m = Except.ok ()
       ∧ (processEmbeddings env force st).2.1 = [Event.savedIndex, Event.savedMap]
       ∧ (processEmbeddings env force st).1.hashFile = some (Except.ok m)
       ∧ (processEmbeddings env force st).2.2.success = true) := by
  rcases hload : env.load with e | docs
  · rw [processEmbeddings_load_error env force st e hload]
    exact Or.inl ⟨rfl, rfl⟩
  · rw [processEmbeddings_load_ok env force st docs hload]
    by_cases hne : docs.isEmpty
    · rw [processWithDocs_empty env force st docs hne]
      exact Or.inl ⟨rfl, rfl⟩
    · by_cases hsc : (((classify env.sha256 docs
          (if force then [] else loadPreviousHashes st)).1.isEmpty && !force) = true)
      · rw [processWithDocs_short env force st docs (Bool.eq_false_iff.mpr hne) hsc]
        exact Or.inl ⟨rfl, rfl⟩
      · rcases hsu : storeUpdate env force st docs
            (env.split (classify env.sha256 docs
              (if force then [] else loadPreviousHashes st)).1) with e | vs
        · rw [processWithDocs_store_error env force st docs (Bool.eq_false_iff.mpr hne)
            (Bool.eq_false_iff.mpr hsc) e hsu]
          exact Or.inl ⟨rfl, rfl⟩
        · rw [processWithDocs_store_ok env force st docs (Bool.eq_false_iff.mpr hne)
            (Bool.eq_false_iff.mpr hsc) vs hsu]
          rcases processPersist_shape env st vs
              (classify env.sha256 docs (if force then [] else loadPreviousHashes st)).2.2
              (classify env.sha256 docs (if force then [] else loadPreviousHashes st)).1.length
              (env.split (classify env.sha256 docs
                (if force then [] else loadPreviousHashes st)).1).length with
              ⟨e, hsi, heq⟩ | ⟨e, hsi, hsm, heq⟩ | ⟨hsi, hsm, heq⟩
          · rw [heq]
            exact Or.inl ⟨rfl, rfl⟩
          · rw [heq]
            exact Or.inr (Or.inl ⟨rfl, rfl⟩)
          · rw [heq]
            refine Or.inr (Or.inr ⟨vs, _, hsi, hsm, rfl, rfl, rfl⟩)



/-- C4 (confirmed): persistence ordering and commit atomicity.  In every
run, a fingerprint-map write appears in the durable-write trace only
after a successful index save (the only trace containing `savedMap` is
`[savedIndex, savedMap]`); when no map write happened the persisted map
is unchanged; and when saving the index fails the persisted fingerprint
map is left unchanged. -/
theorem c4_persistence_order (env : Env) (force : Bool) (st : SState) :
    (Event.savedMap ∈ (processEmbeddings env force st).2.1 →
       (processEmbeddings env force st).2.1 = [Event.savedIndex, Event.savedMap])
    ∧ (Event.savedMap ∉ (processEmbeddings env force st).2.1 →
       (processEmbeddings env force st).1.hashFile = st.hashFile)
    ∧ (∀ e, (∀ ix, env.saveIndex ix = Except.error e) →
       (processEmbeddings env force st).1.hashFile = st.hashFile) := by
  rcases processEmbeddings_shape env force st with
    ⟨htr, hhf⟩ | ⟨htr, hhf⟩ | ⟨vs, m, hsi, hsm, htr, hhf, hsucc⟩
  · exact ⟨fun hmem => absurd (htr ▸ hmem) (List.not_mem_nil _),
      fun _ => hhf, fun _ _ => hhf⟩
  · refine ⟨fun hmem => ?_, fun _ => hhf, fun _ _ => hhf⟩
    rw [htr] at hmem
    simp at hmem
  · refine ⟨fun _ => htr, fun hnm => absurd ?_ hnm, fun e hfail => ?_⟩
    · rw [htr]
      simp
    · rw [hfail vs] at hsi
      exact absurd hsi (by simp)

/-- C3 (confirmed): error containment.  `processEmbeddings` is a total
function (the model of the top-level try/except, so no exception can
escape), and each failing step - document loading, embedding/index build,
index persistence, fingerprint-map persistence - yields the structured
result `success = false` with the message "Error processing embeddings: "
followed by the exception text. -/
theorem c3_error_containment (env : Env) (force : Bool) (st : SState) :
    (∀ e, env.load = Except.error e →
        processEmbeddings env force st = (st, [], mkProcessError e))
    ∧ (∀ docs, env.load = Except.ok docs → docs.isEmpty = false →
        (((classify env.sha256 docs
            (if force then [] else loadPreviousHashes st)).1.isEmpty && !force) = false) →
        (∀ e, storeUpdate env force st docs
            (env.split (classify env.sha256 docs
              (if force then [] else loadPreviousHashes st)).1) = Except.error e →
          processEmbeddings env force st = (st, [], mkProcessError e))
        ∧ (∀ vs e, storeUpdate env force st docs
            (env.split (classify env.sha256 docs
              (if force then [] else loadPreviousHashes st)).1) = Except.ok vs →
            env.saveIndex vs = Except.error e →
          processEmbeddings env force st =
            ({ st with vectorStore := some vs }, [], mkProcessError e))
        ∧ (∀ vs e, storeUpdate env force st docs
            (env.split (classify env.sha256 docs
              (if force then [] else loadPreviousHashes st)).1) = Except.ok vs →
            env.saveIndex vs = Except.ok () →
            env.saveMap (classify env.sha256 docs
              (if force then [] else loadPreviousHashes st)).2.2 = Except.error e →
          processEmbeddings env force st =
            ({ st with vectorStore := some vs, diskIndex := some vs, storeDirExists := true },
             [Event.savedIndex], mkProcessError e))) := by
  constructor
  · intro e h
    exact processEmbeddings_load_error env force st e h
  · intro docs hload hne hgo
    refine ⟨fun e hsu => ?_, fun vs e hsu hsi => ?_, fun vs e hsu hsi hsm => ?_⟩
    · rw [processEmbeddings_load_ok env force st docs hload]
      exact processWithDocs_store_error env force st docs hne hgo e hsu
    · rw [processEmbeddings_load_ok env force st docs hload,
        processWithDocs_store_ok env force st docs hne hgo vs hsu]
      rw [processPersist, hsi]
    · rw [processEmbeddings_load_ok env force st docs hload,
        processWithDocs_store_ok env force st docs hne hgo vs hsu]
      rw [processPersist, hsi, hsm]

/-- C1 (confirmed): change-set classification.  `process_embeddings` runs the
classification loop with the previous map taken to be empty when force is
set (line 94).  Every fetched document has its content hash recorded in
the current map; a document is to-process exactly when its key is absent
from the previous map or the stored hash differs, i.e. when `get` on the
previous map does not return its current hash; it is unchanged otherwise;
and under force every document is to-process and none is unchanged. -/
theorem c1_change_set_classification (sha : String → String) (docs : List Doc)
    (prev : PyDict) (force : Bool) (hkeys : (docs.map Doc.key).Nodup) :
    (∀ d, d ∈ docs →
      dGet (classify sha docs (if force then [] else prev)).2.2 d.key
        = some (sha d.content))
    ∧ (∀ d, d ∈ (classify sha docs (if force then [] else prev)).1 ↔
        (d ∈ docs ∧ dGet (if force then [] else prev) d.key ≠ some (sha d.content)))
    ∧ (∀ d, d ∈ (classify sha docs (if force then [] else prev)).2.1 ↔
        (d ∈ docs ∧ dGet (if force then [] else prev) d.key = some (sha d.content)))
    ∧ (force = true →
        (classify sha docs (if force then [] else prev)).1 = docs
        ∧ (classify sha docs (if force then [] else prev)).2.1 = []) := by
  rw [classify_eq]
  refine ⟨?_, ?_, ?_, ?_⟩
  · intro d hd
    exact dGet_hashFold sha docs hkeys d hd []
  · intro d
    simp [List.mem_filter]
  · intro d
    simp [List.mem_filter]
  · intro hf
    subst hf
    simp only [if_pos]
    constructor
    · apply List.filter_eq_self.mpr
      intro a _
      simp [dGet_nil]
    · apply List.filter_eq_nil_iff.mpr
      intro a _
      simp [dGet_nil]

/-- C1 witness: concrete instance of `c1_change_set_classification`. -/
theorem c1_witness :
    ((docsW.map Doc.key).Nodup
      ∧ dGet (classify shaW docsW (if false then [] else prevW)).2.2 "a" = some "#x")
    ∧ (⟨"b", "y"⟩ : Doc) ∈ (classify shaW docsW (if false then [] else prevW)).1 := by
  refine ⟨⟨by decide, ?_⟩, ?_⟩
  · exact (c1_change_set_classification shaW docsW prevW false (by decide)).1
      ⟨"a", "x"⟩ (by decide)
  · exact ((c1_change_set_classification shaW docsW prevW false (by decide)).2.1
      ⟨"b", "y"⟩).mpr (by decide)

def envW : Env :=
  { sha256 := shaW
    load := Except.ok docsW
    split := fun ds => ds
    embed := fun ds => Except.ok (Index.fromDocs ds)
    saveIndex := fun _ => Except.ok ()
    saveMap := fun _ => Except.ok () }

def stEmpty : SState :=
  { vectorStore := none
    hashFile := none
    diskIndex := none
    mtimeStr := Except.ok "2024-01-01T00:00:00"
    storeDirExists := false
    dirSize := Except.ok 0 }

/-- a state whose persisted fingerprints already match both documents of
`docsW`, with no index loaded -/
def stPrevMatch : SState :=
  { stEmpty with hashFile := some (Except.ok [("a", "#x"), ("b", "#y")]) }

/-- C2 counterexample: with no index loaded (`vectorStore = none`), force
false, and every fetched document fingerprint-unchanged, the pipeline
short-circuits with success and builds nothing, leaving the store `none`.
So the claim as stated ("whenever no index is currently loaded or force is
true, process builds a brand-new index from the chunks of all fetched
documents") is false at this input. -/
theorem c2_counterexample :
    stPrevMatch.vectorStore = none
    ∧ processEmbeddings envW false stPrevMatch = (stPrevMatch, [], upToDateResult)
    ∧ (processEmbeddings envW false stPrevMatch).1.vectorStore = none
    ∧ (processEmbeddings envW false stPrevMatch).2.2.success = true := by
  refine ⟨rfl, by decide, by decide, by decide⟩

/-- C2 (amended): in a run that reaches the index-mutation step (documents
were fetched and some document is to-process or force is true): whenever
no index is loaded or force is true, the store is wholesale-replaced by a
brand-new index built from the chunks of all fetched documents; otherwise
only the chunks of the to-process documents are merged into the existing
index, and the merge is skipped entirely when there are no new chunks. -/
theorem c2_amended (env : Env) (force : Bool) (st : SState) (docs : List Doc)
    (hload : env.load = Except.ok docs) (hne : docs.isEmpty = false)
    (hgo : (((classify env.sha256 docs
        (if force then [] else loadPreviousHashes st)).1.isEmpty && !force) = false)) :
    ((st.vectorStore = none ∨ force = true) →
       ∀ ix, env.embed (env.split docs) = Except.ok ix →
         (processEmbeddings env force st).1.vectorStore = some ix)
    ∧ (∀ vs, st.vectorStore = some vs → force = false →
        ((env.split (classify env.sha256 docs (loadPreviousHashes st)).1).isEmpty = true →
           (processEmbeddings env force st).1.vectorStore = some vs)
        ∧ (∀ nvs,
             (env.split (classify env.sha256 docs (loadPreviousHashes st)).1).isEmpty = false →
             env.embed (env.split (classify env.sha256 docs (loadPreviousHashes st)).1)
               = Except.ok nvs →
             (processEmbeddings env force st).1.vectorStore
               = some (Index.merged vs nvs))) := by
  constructor
  · intro hbf ix hembed
    have hsu : storeUpdate env force st docs
        (env.split (classify env.sha256 docs
          (if force then [] else loadPreviousHashes st)).1) = Except.ok ix := by
      rcases hbf with hvs | hf
      · rw [storeUpdate_build_none env force st docs _ hvs, hembed]
      · subst hf
        rcases hvs : st.vectorStore with _ | vs
        · rw [storeUpdate_build_none env true st docs _ hvs, hembed]
        · rw [storeUpdate_build_force env st docs _ vs hvs, hembed]
    rw [processEmbeddings_load_ok env force st docs hload,
      processWithDocs_store_ok env force st docs hne hgo ix hsu]
    exact processPersist_vectorStore env st ix _ _ _
  · intro vs hvs hf
    subst hf
    constructor
    · intro hchunks
      have hsu : storeUpdate env false st docs
          (env.split (classify env.sha256 docs (loadPreviousHashes st)).1)
            = Except.ok vs := by
        rw [storeUpdate_merge env st docs _ vs hvs]
        exact if_pos hchunks
      rw [processEmbeddings_load_ok env false st docs hload,
        processWithDocs_store_ok env false st docs hne hgo vs hsu]
      exact processPersist_vectorStore env st vs _ _ _
    · intro nvs hchunks hembed
      have hsu : storeUpdate env false st docs
          (env.split (classify env.sha256 docs (loadPreviousHashes st)).1)
            = Except.ok (Index.merged vs nvs) := by
        rw [storeUpdate_merge env st docs _ vs hvs, if_neg (by simp [hchunks]), hembed]
        rfl
      rw [processEmbeddings_load_ok env false st docs hload,
        processWithDocs_store_ok env false st docs hne hgo _ hsu]
      exact processPersist_vectorStore env st _ _ _ _

/-- a state holding an index for document a only, with fingerprints for a -/
def ixA : Index := Index.fromDocs [⟨"a", "x"⟩]

def stSome : SState :=
  { stEmpty with vectorStore := some ixA, hashFile := some (Except.ok [("a", "#x")]) }

/-- C2 witness: concrete forced rebuild and concrete incremental merge. -/
theorem c2_witness :
    (processEmbeddings envW true stSome).1.vectorStore = some (Index.fromDocs docsW)
    ∧ (processEmbeddings envW false stSome).1.vectorStore
        = some (Index.merged ixA (Index.fromDocs [⟨"b", "y"⟩])) := by
  constructor
  · exact (c2_amended envW true stSome docsW rfl (by decide) (by decide)).1
      (Or.inr rfl) (Index.fromDocs docsW) rfl
  · exact ((c2_amended envW false stSome docsW rfl (by decide) (by decide)).2
      ixA rfl rfl).2 (Index.fromDocs [⟨"b", "y"⟩]) (by decide) (by decide)

/-- C7 (amended): short-circuit idempotence.  When the loader returns a
nonempty document list, force is false and no document is to-process,
`process_embeddings` returns success with the up-to-date message and the
state completely unchanged: no chunking, no embedding, no index mutation,
no durable write - in particular the current fingerprint map is NOT
persisted even when its key set differs from the previous map. -/
theorem c7_amended (env : Env) (st : SState) (docs : List Doc)
    (hload : env.load = Except.ok docs) (hne : docs.isEmpty = false)
    (hnew : (classify env.sha256 docs (loadPreviousHashes st)).1.isEmpty = true) :
    processEmbeddings env false st = (st, [], upToDateResult) := by
  simp [processEmbeddings, hload, processWithDocs, hne, hnew]

/-- environment whose loader returns only document a (document b has been
deleted from storage) -/
def envOnlyA : Env := { envW with load := Except.ok [⟨"a", "x"⟩] }

/-- state whose persisted fingerprint map still lists documents a and b -/
def stC7 : SState :=
  { stEmpty with vectorStore := some ixA, hashFile := some (Except.ok [("a", "#x"), ("b", "#y")]) }

/-- C7 counterexample: document b was deleted from storage, so the current
map has key set {a} while the persisted previous map has {a, b}; the run
short-circuits and the persisted map is left with the stale entry for b,
refuting the claim that the current map is still persisted when its key
set differs. -/
theorem c7_counterexample :
    processEmbeddings envOnlyA false stC7 = (stC7, [], upToDateResult)
    ∧ (classify envOnlyA.sha256 [⟨"a", "x"⟩] (loadPreviousHashes stC7)).2.2 = [("a", "#x")]
    ∧ dKeys (classify envOnlyA.sha256 [⟨"a", "x"⟩] (loadPreviousHashes stC7)).2.2
        ≠ dKeys (loadPreviousHashes stC7)
    ∧ (processEmbeddings envOnlyA false stC7).1.hashFile
        = some (Except.ok [("a", "#x"), ("b", "#y")]) := by
  refine ⟨by decide, by decide, by decide, by decide⟩

/-- C7 witness: concrete instance of `c7_amended`. -/
theorem c7_witness :
    (envOnlyA.load = Except.ok [(⟨"a", "x"⟩ : Doc)]
      ∧ ([(⟨"a", "x"⟩ : Doc)] : List Doc).isEmpty = false
      ∧ (classify envOnlyA.sha256 [⟨"a", "x"⟩] (loadPreviousHashes stC7)).1.isEmpty = true)
    ∧ processEmbeddings envOnlyA false stC7 = (stC7, [], upToDateResult) := by
  refine ⟨⟨rfl, by decide, by decide⟩, ?_⟩
  exact c7_amended envOnlyA stC7 [⟨"a", "x"⟩] rfl (by decide) (by decide)

/-- an environment whose index persistence always fails -/
def envSaveFail : Env := { envW with saveIndex := fun _ => Except.error "disk full" }

/-- C4 witness: concrete successful run producing the ordered trace, and a
concrete index-save failure leaving the map untouched. -/
theorem c4_witness :
    ((processEmbeddings envW false stEmpty).2.1 = [Event.savedIndex, Event.savedMap])
    ∧ (processEmbeddings envSaveFail false stEmpty).1.hashFile = stEmpty.hashFile := by
  constructor
  · exact (c4_persistence_order envW false stEmpty).1 (by decide)
  · exact (c4_persistence_order envSaveFail false stEmpty).2.2 "disk full" (fun ix => rfl)

/-- an environment whose loader fails -/
def envLoadFail : Env := { envW with load := Except.error "connection refused" }

/-- an environment whose fingerprint-map write fails -/
def envMapFail : Env := { envW with saveMap := fun _ => Except.error "permission denied" }

/-- C3 witness: concrete loader failure and concrete map-write failure. -/
theorem c3_witness :
    processEmbeddings envLoadFail false stEmpty
      = (stEmpty, [], mkProcessError "connection refused")
    ∧ processEmbeddings envMapFail false stEmpty
      = ({ stEmpty with vectorStore := some (Index.fromDocs docsW), diskIndex := some (Index.fromDocs docsW), storeDirExists := true }, [Event.savedIndex], mkProcessError "permission denied") := by
  constructor
  · exact (c3_error_containment envLoadFail false stEmpty).1 "connection refused" rfl
  · exact ((c3_error_containment envMapFail false stEmpty).2 docsW rfl (by decide)
      (by decide)).2.2 (Index.fromDocs docsW) "permission denied" (by decide) rfl rfl

/-! ## Helper lemmas: score normalization bounds -/

theorem roundHalfEven_nonneg (x : ℚ) (hx : 0 ≤ x) : 0 ≤ roundHalfEven x := by
  have hf : (0 : ℤ) ≤ ⌊x⌋ := Int.floor_nonneg.mpr hx
  rw [roundHalfEven]
  split
  · exact hf
  · split
    · omega
    · split
      · exact hf
      · omega

theorem roundHalfEven_le_of_le (x : ℚ) (n : ℤ) (hx : x ≤ (n : ℚ)) :
    roundHalfEven x ≤ n := by
  have hf : ⌊x⌋ ≤ n := by
    have := Int.floor_le_floor hx
    simpa using this
  rw [roundHalfEven]
  split
  · exact hf
  · rename_i h1
    push_neg at h1
    have hlt : (⌊x⌋ : ℚ) < (n : ℚ) := by
      have hfr : (⌊x⌋ : ℚ) ≤ x - 1/2 := by linarith
      have : (⌊x⌋ : ℚ) < x := by linarith
      exact lt_of_lt_of_le this hx
    have hlt2 : ⌊x⌋ < n := by exact_mod_cast hlt
    split
    · omega
    · split
      · exact hf
      · omega

theorem pyRound4_bounds (x : ℚ) (h0 : 0 ≤ x) (h1 : x ≤ 1) :
    0 ≤ pyRound4 x ∧ pyRound4 x ≤ 1 := by
  have hnn : 0 ≤ roundHalfEven (x * 10000) :=
    roundHalfEven_nonneg _ (by positivity)
  have hle : roundHalfEven (x * 10000) ≤ 10000 :=
    roundHalfEven_le_of_le _ 10000 (by push_cast; linarith)
  constructor
  · rw [pyRound4]
    positivity
  · rw [pyRound4]
    rw [div_le_one (by norm_num)]
    exact_mod_cast hle

theorem similarity_bounds (d : ℚ) (hd : 0 ≤ d) :
    0 ≤ (1 : ℚ) / (1 + d) ∧ (1 : ℚ) / (1 + d) ≤ 1 := by
  have hpos : (0 : ℚ) < 1 + d := by linarith
  constructor
  · positivity
  · rw [div_le_one hpos]
    linarith

/-! ## Query pipeline lemmas -/

theorem search_none (env : SearchEnv) (q : String) (k : Nat) (t : ℚ) :
    search none env q k t = Except.error (PyError.valueError notReadyMessage) := rfl

theorem search_engine_error (store : Index) (env : SearchEnv) (q : String)
    (k : Nat) (t : ℚ) (e : String) (h : env.engine q k = Except.error e) :
    search (some store) env q k t
      = Except.error (PyError.valueError ("Search error: " ++ e)) := by
  rw [search.eq_def, h]

theorem search_engine_ok (store : Index) (env : SearchEnv) (q : String)
    (k : Nat) (t : ℚ) (results : List (RawDoc × ℚ))
    (h : env.engine q k = Except.ok results) :
    search (some store) env q k t = Except.ok (results.filterMap (fun r =>
      if t ≤ (1 : ℚ) / (1 + r.2) then some (toDocumentChunk r.1 ((1 : ℚ) / (1 + r.2)))
      else none)) := by
  rw [search.eq_def, h]

theorem search_mem (store : Index) (env : SearchEnv) (q : String) (k : Nat)
    (t : ℚ) (results : List (RawDoc × ℚ)) (heng : env.engine q k = Except.ok results)
    (out : List DocumentChunk) (hout : search (some store) env q k t = Except.ok out) :
    ∀ c, c ∈ out ↔ ∃ r ∈ results,
      t ≤ 1 / (1 + r.2) ∧ c = toDocumentChunk r.1 (1 / (1 + r.2)) := by
  rw [search_engine_ok store env q k t results heng] at hout
  injection hout with hout
  subst hout
  intro c
  simp only [List.mem_filterMap, Option.ite_none_right_eq_some, Option.some.injEq]
  constructor
  · rintro ⟨r, hr, ht, rfl⟩
    exact ⟨r, hr, ht, rfl⟩
  · rintro ⟨r, hr, ht, rfl⟩
    exact ⟨r, hr, ht, rfl⟩



/-- C5 (amended): score normalization.  For an L2-style engine (all
returned distances nonnegative), every result returned by `search` has a
score equal to `1/(1+distance)` rounded to four decimal places (Python
`round(x, 4)`), the unrounded `1/(1+distance)` cleared the threshold, and
the returned score lies in `[0, 1]`. -/
theorem c5_amended (store : Index) (env : SearchEnv) (q : String) (k : Nat)
    (t : ℚ) (results : List (RawDoc × ℚ)) (heng : env.engine q k = Except.ok results)
    (hnn : ∀ r ∈ results, 0 ≤ r.2) (out : List DocumentChunk)
    (hout : search (some store) env q k t = Except.ok out) :
    ∀ c ∈ out, ∃ r ∈ results,
      c.score = pyRound4 (1 / (1 + r.2))
      ∧ t ≤ 1 / (1 + r.2)
      ∧ 0 ≤ c.score ∧ c.score ≤ 1 := by
  intro c hc
  obtain ⟨r, hr, ht, rfl⟩ :=
    (search_mem store env q k t results heng out hout c).mp hc
  have hsim := similarity_bounds r.2 (hnn r hr)
  have hb := pyRound4_bounds (1 / (1 + r.2)) hsim.1 hsim.2
  exact ⟨r, hr, rfl, ht, hb.1, hb.2⟩

def rawW : RawDoc :=
  { page_content := "cats are great pets", keyMeta := some "a"
    sourceMeta := some "s3", sizeMeta := none, lastModified := none }

def envSearchC5 : SearchEnv := { engine := fun _ _ => Except.ok [(rawW, 2)] }

theorem searchC5_eval :
    search (some ixA) envSearchC5 "q" 5 0 = Except.ok [toDocumentChunk rawW (1/3)] := by
  rw [search_engine_ok ixA envSearchC5 "q" 5 0 [(rawW, 2)] rfl]
  norm_num [List.filterMap_cons, List.filterMap_nil]

theorem pyRound4_third : pyRound4 (1/3) = 3333/10000 := by
  have h : ⌊(1/3 : ℚ) * 10000⌋ = 3333 := by
    rw [Int.floor_eq_iff]
    norm_num
  simp only [pyRound4, roundHalfEven, h]
  norm_num

/-- C5 counterexample: at distance 2 the returned score is the rounded
`0.3333`, which differs from the exact `1/(1+2) = 1/3`, so the claim that
the returned similarity equals `1/(1+distance)` exactly is false. -/
theorem c5_counterexample :
    search (some ixA) envSearchC5 "q" 5 0 = Except.ok [toDocumentChunk rawW (1/3)]
    ∧ (toDocumentChunk rawW (1/3)).score = 3333/10000
    ∧ ((3333 : ℚ)/10000) ≠ 1 / (1 + 2) := by
  refine ⟨searchC5_eval, ?_, by norm_num⟩
  show pyRound4 (1/3) = 3333/10000
  exact pyRound4_third

/-- C5 witness: concrete instance of `c5_amended` showing the score
bounds at a concrete engine result. -/
theorem c5_witness :
    (envSearchC5.engine "q" 5 = Except.ok [(rawW, 2)]
      ∧ (0 : ℚ) ≤ 2
      ∧ toDocumentChunk rawW (1/3) ∈ [toDocumentChunk rawW (1/3)])
    ∧ 0 ≤ (toDocumentChunk rawW (1/3)).score
    ∧ (toDocumentChunk rawW (1/3)).score ≤ 1 := by
  refine ⟨⟨rfl, by norm_num, List.mem_singleton_self _⟩, ?_, ?_⟩
  · obtain ⟨r, hr, hsc, ht, h0, h1⟩ :=
      c5_amended ixA envSearchC5 "q" 5 0 [(rawW, 2)] rfl
        (by intro r hr; rw [List.mem_singleton] at hr; subst hr; norm_num)
        [toDocumentChunk rawW (1/3)] searchC5_eval
        (toDocumentChunk rawW (1/3)) (List.mem_singleton_self _)
    exact h0
  · obtain ⟨r, hr, hsc, ht, h0, h1⟩ :=
      c5_amended ixA envSearchC5 "q" 5 0 [(rawW, 2)] rfl
        (by intro r hr; rw [List.mem_singleton] at hr; subst hr; norm_num)
        [toDocumentChunk rawW (1/3)] searchC5_eval
        (toDocumentChunk rawW (1/3)) (List.mem_singleton_self _)
    exact h1



theorem searchError_ne_notReady (e : String) :
    "Search error: " ++ e ≠ notReadyMessage := by
  intro h
  have h2 := congrArg (fun s : String => s.data.head?) h
  simp only [notReadyMessage] at h2
  have hl : ("Search error: " ++ e).data.head? = some 'S' := rfl
  rw [hl] at h2
  have hr : ("Vector store not available. Please process embeddings first." : String).data.head?
      = some 'V' := rfl
  rw [hr] at h2
  simp at h2

/-- C6 (amended): error typing.  When no index is loaded, `search` raises
`ValueError` with the not-ready message; any other failure raises
`ValueError` with the message "Search error: " plus the cause.  The two
cases carry the same exception class and are distinguishable only by
their messages, which always differ. -/
theorem c6_amended (store : Option Index) (env : SearchEnv) (q : String)
    (k : Nat) (t : ℚ) :
    (store = none →
       search store env q k t = Except.error (PyError.valueError notReadyMessage))
    ∧ (∀ ix e, store = some ix → env.engine q k = Except.error e →
        search store env q k t
          = Except.error (PyError.valueError ("Search error: " ++ e))
        ∧ "Search error: " ++ e ≠ notReadyMessage) := by
  constructor
  · intro h
    subst h
    exact search_none env q k t
  · intro ix e hst heng
    subst hst
    exact ⟨search_engine_error ix env q k t e heng, searchError_ne_notReady e⟩

def envSearchOk0 : SearchEnv := { engine := fun _ _ => Except.ok [] }

def envSearchFail : SearchEnv := { engine := fun _ _ => Except.error "index corrupted" }

/-- C6 counterexample: the not-ready failure and an engine failure both
raise an exception of class ValueError, so a caller cannot distinguish
"not ready" from "search failed" by the exception class alone. -/
theorem c6_counterexample :
    search none envSearchOk0 "q" 5 (7/10)
      = Except.error (PyError.valueError notReadyMessage)
    ∧ search (some ixA) envSearchFail "q" 5 (7/10)
      = Except.error (PyError.valueError ("Search error: " ++ "index corrupted"))
    ∧ PyError.className (PyError.valueError notReadyMessage)
      = PyError.className (PyError.valueError ("Search error: " ++ "index corrupted")) := by
  refine ⟨rfl, ?_, rfl⟩
  exact search_engine_error ixA envSearchFail "q" 5 (7/10) "index corrupted" rfl

/-- C6 witness: concrete instance of `c6_amended` at both failure modes. -/
theorem c6_witness :
    search (none : Option Index) envSearchOk0 "q" 5 (7/10)
      = Except.error (PyError.valueError notReadyMessage)
    ∧ search (some ixA) envSearchFail "q" 5 (7/10)
      = Except.error (PyError.valueError ("Search error: " ++ "index corrupted"))
    ∧ "Search error: " ++ "index corrupted" ≠ notReadyMessage := by
  refine ⟨(c6_amended none envSearchOk0 "q" 5 (7/10)).1 rfl, ?_, ?_⟩
  · exact ((c6_amended (some ixA) envSearchFail "q" 5 (7/10)).2
      ixA "index corrupted" rfl rfl).1
  · exact ((c6_amended (some ixA) envSearchFail "q" 5 (7/10)).2
      ixA "index corrupted" rfl rfl).2

/-- C8 (confirmed): threshold filtering and monotonicity.  For a fixed
query and fixed engine result set, `search` returns exactly the shaped
results whose similarity `1/(1+distance)` is at least the threshold, and
for thresholds `t1 <= t2` every result returned at `t2` is also returned
at `t1` (superset). -/
theorem c8_threshold_filtering (store : Index) (env : SearchEnv) (q : String)
    (k : Nat) (results : List (RawDoc × ℚ))
    (heng : env.engine q k = Except.ok results) :
    (∀ t out, search (some store) env q k t = Except.ok out →
       ∀ c, c ∈ out ↔ ∃ r ∈ results,
         t ≤ 1 / (1 + r.2) ∧ c = toDocumentChunk r.1 (1 / (1 + r.2)))
    ∧ (∀ t1 t2 out1 out2, t1 ≤ t2 →
        search (some store) env q k t1 = Except.ok out1 →
        search (some store) env q k t2 = Except.ok out2 →
        ∀ c ∈ out2, c ∈ out1) := by
  constructor
  · intro t out hout
    exact search_mem store env q k t results heng out hout
  · intro t1 t2 out1 out2 ht h1 h2 c hc
    obtain ⟨r, hr, hle, rfl⟩ :=
      (search_mem store env q k t2 results heng out2 h2 c).mp hc
    exact (search_mem store env q k t1 results heng out1 h1 _).mpr
      ⟨r, hr, le_trans ht hle, rfl⟩

def rawD : RawDoc :=
  { page_content := "dogs are loyal companions", keyMeta := some "b"
    sourceMeta := some "s3", sizeMeta := none, lastModified := none }

def envSearchC8 : SearchEnv :=
  { engine := fun _ _ => Except.ok [(rawD, 0), (rawW, 2)] }

theorem searchC8_eval_low :
    search (some ixA) envSearchC8 "q" 5 0
      = Except.ok [toDocumentChunk rawD 1, toDocumentChunk rawW (1/3)] := by
  rw [search_engine_ok ixA envSearchC8 "q" 5 0 [(rawD, 0), (rawW, 2)] rfl]
  norm_num [List.filterMap_cons, List.filterMap_nil]

theorem searchC8_eval_high :
    search (some ixA) envSearchC8 "q" 5 (1/2)
      = Except.ok [toDocumentChunk rawD 1] := by
  rw [search_engine_ok ixA envSearchC8 "q" 5 (1/2) [(rawD, 0), (rawW, 2)] rfl]
  norm_num [List.filterMap_cons, List.filterMap_nil]

/-- C8 witness: concrete instance of the monotonicity part of
`c8_threshold_filtering` at thresholds 0 and 1/2. -/
theorem c8_witness :
    ((1 : ℚ)/2 ≤ 1/2 ∧ (0 : ℚ) ≤ 1/2)
    ∧ toDocumentChunk rawD 1 ∈ [toDocumentChunk rawD 1, toDocumentChunk rawW (1/3)] := by
  refine ⟨⟨le_refl _, by norm_num⟩, ?_⟩
  exact (c8_threshold_filtering ixA envSearchC8 "q" 5 [(rawD, 0), (rawW, 2)] rfl).2
    0 (1/2) [toDocumentChunk rawD 1, toDocumentChunk rawW (1/3)] [toDocumentChunk rawD 1]
    (by norm_num) searchC8_eval_low searchC8_eval_high
    (toDocumentChunk rawD 1) (List.mem_singleton_self _)

/-! ## Statistics and singleton lemmas -/

/-- C9 (amended): `get_stats` is a total function of the service state
(never raises).  Failures are handled selectively, not by a blanket
zeroed result: a corrupted or absent hash file yields an empty map (0
documents) while the other fields are still computed, a failure while
summing the store directory size is swallowed leaving only the size
field absent, and only a failure escaping to the top-level handler (the
timestamp step, reachable only when the hash file exists) yields the
fully zeroed statistics. -/
theorem c9_amended (st : SState) :
    getStats st =
      (if st.hashFile.isSome && isErrorE st.mtimeStr then zeroStats
       else
         { total_documents := (loadPreviousHashes st).length
           total_chunks :=
             match st.vectorStore with
             | some ix => ix.ntotal
             | none => 0
           last_update := if st.hashFile.isSome then exceptToOption st.mtimeStr else none
           vector_store_size := if st.storeDirExists then exceptToOption st.dirSize else none }) := by
  rw [getStats, getStatsCore]
  rcases hm : st.mtimeStr with e | v <;> rcases hd : st.dirSize with e2 | n <;>
    by_cases hs : st.hashFile.isSome <;> by_cases hdir : st.storeDirExists <;>
    simp_all [isErrorE, exceptToOption, Except.map]

def stStatsC9 : SState :=
  { vectorStore := some ixA
    hashFile := some (Except.ok [("a", "#x")])
    diskIndex := some ixA
    mtimeStr := Except.ok "2024-01-01T00:00:00"
    storeDirExists := true
    dirSize := Except.error "Permission denied" }

/-- C9 counterexample: an I/O error raised while gathering the store size
does not produce the zeroed statistics - the returned value still counts
1 document and 1 chunk - refuting "on an internal failure it returns the
zeroed statistics". -/
theorem c9_counterexample :
    stStatsC9.dirSize = Except.error "Permission denied"
    ∧ getStats stStatsC9 =
        { total_documents := 1, total_chunks := 1
          last_update := some "2024-01-01T00:00:00", vector_store_size := none }
    ∧ getStats stStatsC9 ≠ zeroStats
    ∧ (getStats stStatsC9).total_documents ≠ 0 := by
  refine ⟨rfl, by decide, by decide, by decide⟩



/-- invariant: either the slot is untouched (fresh), or it holds the one
object allocated with id 0, already initialised exactly once -/
def singletonInv (cs : ClassState) : Prop :=
  (cs = freshClassState)
  ∨ (cs.instanceSlot = some { oid := 0, instInitialized := true }
      ∧ cs.clsInitialized = false ∧ cs.nextOid = 1 ∧ cs.initCount = 1)

theorem constructService_inv (cs : ClassState) (h : singletonInv cs) :
    (constructService cs).1.oid = 0 ∧ singletonInv (constructService cs).2
    ∧ ¬ (constructService cs).2 = freshClassState := by
  rcases h with rfl | ⟨hslot, hcls, hoid, hcount⟩
  · refine ⟨rfl, Or.inr ⟨rfl, rfl, rfl, rfl⟩, ?_⟩
    intro hc
    have := congrArg ClassState.instanceSlot hc
    simp [constructService, newService, initService, readInitialized, freshClassState] at this
  · have hc : constructService cs = ({ oid := 0, instInitialized := true }, cs) := by
      rw [constructService, newService.eq_def, hslot]
      simp only []
      rw [initService, readInitialized]
      simp
    rw [hc]
    refine ⟨rfl, Or.inr ⟨hslot, hcls, hoid, hcount⟩, ?_⟩
    intro hfc
    have hfc2 : cs = freshClassState := hfc
    rw [hfc2] at hslot
    simp [freshClassState] at hslot

theorem getInstance_inv (cs : ClassState) (h : singletonInv cs) :
    (getInstance cs).1.oid = 0 ∧ singletonInv (getInstance cs).2 := by
  rcases h with rfl | ⟨hslot, hcls, hoid, hcount⟩
  · have := constructService_inv freshClassState (Or.inl rfl)
    rw [getInstance]
    exact ⟨this.1, this.2.1⟩
  · rw [getInstance.eq_def, hslot]
    exact ⟨rfl, Or.inr ⟨hslot, hcls, hoid, hcount⟩⟩

theorem runOps_inv (ops : List SvcOp) (cs : ClassState) (h : singletonInv cs) :
    ((runOps ops cs).1.all (fun o => o.oid == 0)) = true
    ∧ singletonInv (runOps ops cs).2
    ∧ (runOps ops cs).2.initCount ≤ 1 := by
  induction ops generalizing cs with
  | nil =>
    refine ⟨rfl, h, ?_⟩
    rcases h with rfl | ⟨_, _, _, hcount⟩
    · exact Nat.zero_le 1
    · show cs.initCount ≤ 1
      omega
  | cons op rest ih =>
    rcases op with _ | _
    · have hstep := constructService_inv cs h
      have hrest := ih (constructService cs).2 hstep.2.1
      rw [runOps]
      simp only [List.all_cons, Bool.and_eq_true, beq_iff_eq]
      exact ⟨⟨hstep.1, hrest.1⟩, hrest.2.1, hrest.2.2⟩
    · have hstep := getInstance_inv cs h
      have hrest := ih (getInstance cs).2 hstep.2
      rw [runOps]
      simp only [List.all_cons, Bool.and_eq_true, beq_iff_eq]
      exact ⟨⟨hstep.1, hrest.1⟩, hrest.2.1, hrest.2.2⟩

/-- C10 (confirmed): singleton invariant.  Starting from a fresh class
state, any sequence of `EmbeddingService()` constructions and
`get_instance` calls (no `reset_instance`) returns the one object with
allocation id 0 every time, and the initialisation body (including the
load of the persisted index) runs at most once. -/
theorem c10_singleton (ops : List SvcOp) :
    ((runOps ops freshClassState).1.all (fun o => o.oid == 0)) = true
    ∧ (runOps ops freshClassState).2.initCount ≤ 1 := by
  have h := runOps_inv ops freshClassState (Or.inl rfl)
  exact ⟨h.1, h.2.2⟩

end PortfolioBackend
